import Mathlib

/-!
Shallow embedding of the `agent-wallet` core crate (`src/core/src/`), covering the
data model and operations referenced by the specification claims:

* `types.rs`    — `PermissionLevel`, `AgentAction`, `SpendingLimits`, `AgentContext`
* `encryption.rs` — `EncryptedData`, `KeyDerivation`, `EncryptionService`, `utils`
* `keypair.rs`  — `SecureKeypair::encrypt` / `SecureKeypair::decrypt`
* `transaction.rs` — `TransactionBuilder` (build, validate, fee estimation)
* `wallet.rs`   — `Wallet::transfer_sol`
* `rpc.rs`      — `EndpointHealth`, `execute_with_failover`, `switch_to_next_endpoint`
* `storage.rs`  — `StorageService::save_wallet` / `delete_wallet` / `backup_wallet`

Modelling conventions, used consistently below:

* Rust `f64` quantities (SOL amounts, success rates) are modelled as exact
  rationals `ℚ`; the claims under study are about control flow and conservation,
  not float rounding.
* Opaque identifiers (public keys, URLs, wallet names, memo bytes, passphrases)
  are modelled as `Nat` (or `List Nat` for byte strings).
* Cryptographic primitives are modelled symbolically (ideal-cipher style):
  PBKDF2 is an injective function of (passphrase, salt, iterations) — collisions
  are computationally infeasible — and an AEAD open succeeds exactly when the
  key matches the one used at seal time (the authentication-tag check).
  Fresh randomness (random keys, salts, nonces) is passed in as explicit
  arguments; freshness is expressed by distinctness hypotheses.
* Machine-integer overflow is kept where it matters (`% 2 ^ 64` in the fee
  estimator); elsewhere values are far below `u64::MAX` and are plain `Nat`.
* Timestamps are seconds since epoch as `Int`; `chrono::Duration::num_days`
  is integer division by 86400 truncating toward zero, matching Rust `i64`
  division (`Int.tdiv`).
-/

/-- Error variants, one constructor per distinct error construction site used by
the embedded code paths (`error.rs` variants, distinguished by their message
where the Rust code reuses a variant). -/
inductive Err
  /-- `Error::encryption("Unsupported encryption version: ...")` from `EncryptedData::validate`. -/
  | unsupportedEncryptionVersion
  /-- AEAD tag-check failure: `Error::encryption("AES-GCM decryption failed")` / `("Ring decryption failed")`. -/
  | aeadOpenFailed
  /-- `Error::encryption("Invalid nonce length: ...")` from `decrypt_ring`. -/
  | invalidNonceLength
  /-- `Error::Keypair("Unsupported keypair version: ...")` from `SecureKeypair::decrypt`. -/
  | unsupportedKeypairVersion
  /-- `Error::Keypair("Invalid decrypted key length: ...")` from `SecureKeypair::decrypt`. -/
  | invalidDecryptedKeyLength
  /-- `Error::LimitExceeded` from `AgentContext::is_action_allowed`. -/
  | limitExceeded
  /-- `Error::InsufficientFunds` (both the balance check and the daily-budget check). -/
  | insufficientFunds
  /-- `Error::InvalidAmount` from `Wallet::transfer_sol`. -/
  | invalidAmount
  /-- `Error::InvalidPermission` from `TransactionBuilder::validate_permission`. -/
  | invalidPermission
  /-- `Error::NotSupported("Action type not yet implemented")` from `action_to_instructions`. -/
  | notSupported
  /-- `Error::validation(...)` (instruction-count and transaction-size checks). -/
  | validationFailed
  /-- `Error::TransactionValidation` from `Wallet::transfer_sol`. -/
  | transactionValidationFailed
  /-- `Error::rpc("All retries failed. ...")` from `execute_with_failover`. -/
  | rpcAllRetriesFailed
  /-- `Error::rpc("No healthy endpoints available")` from `switch_to_next_endpoint`. -/
  | noHealthyEndpoints
  /-- Failure of the prepare/sign/send network step in `Wallet::transfer_sol`. -/
  | rpcSendFailed
  /-- `Error::WalletNotFound` from `StorageService`. -/
  | walletNotFound
  deriving DecidableEq, Repr

/-- `types.rs`: `PermissionLevel`, with the variant order of the source enum.
The Rust `#[derive(PartialOrd, Ord)]` orders variants by declaration order. -/
inductive PermissionLevel
  | readOnly
  | basic
  | advanced
  | full
  | administrator
  deriving DecidableEq, Repr, Fintype

namespace PermissionLevel

/-- Declaration index of the variant; the derived Rust `Ord` compares these. -/
def toNat : PermissionLevel → Nat
  | .readOnly => 0
  | .basic => 1
  | .advanced => 2
  | .full => 3
  | .administrator => 4

/-- `PermissionLevel::can_perform`: `*self >= required` under the derived order. -/
def can_perform (self required : PermissionLevel) : Bool :=
  required.toNat ≤ self.toNat

end PermissionLevel

/-- `types.rs`: `AgentAction`. Pubkeys, memo bytes and parameter strings are
opaque (`Nat` / `List Nat`); amounts are `Nat` lamports / base units. -/
inductive AgentAction
  | transferSol (dest : Nat) (amount : Nat) (memo : Option (List Nat))
  | transferToken (mint : Nat) (dest : Nat) (amount : Nat) (memo : Option (List Nat))
  | swapTokens (inputMint : Nat) (outputMint : Nat) (amount : Nat) (minOutputAmount : Nat)
  | provideLiquidity (pool : Nat) (tokenAAmount : Nat) (tokenBAmount : Nat)
  | removeLiquidity (pool : Nat) (lpTokenAmount : Nat)
  | stakeTokens (stakingPool : Nat) (amount : Nat)
  | unstakeTokens (stakingPool : Nat) (amount : Nat)
  | protocolInteraction (protocol : Nat) (action : Nat) (parameters : Nat)
  | noOp
  deriving DecidableEq, Repr

/-- `AgentAction::required_permission`. -/
def AgentAction.required_permission : AgentAction → PermissionLevel
  | .transferSol .. => .basic
  | .transferToken .. => .advanced
  | .swapTokens .. => .advanced
  | .provideLiquidity .. => .advanced
  | .removeLiquidity .. => .advanced
  | .stakeTokens .. => .advanced
  | .unstakeTokens .. => .advanced
  | .protocolInteraction .. => .full
  | .noOp => .readOnly

/-- `types.rs`: `SpendingLimits`. SOL/USD amounts are `f64` in the source,
modelled as `ℚ`; `last_reset` is seconds since epoch. -/
structure SpendingLimits where
  daily_limit_sol : ℚ
  daily_limit_usd : ℚ
  per_transaction_limit_sol : ℚ
  remaining_daily_budget_sol : ℚ
  last_reset : Int
  deriving DecidableEq, Repr

/-- `types.rs`: `AgentContext`, restricted to the fields the embedded operations
read or write (`spending_limits`, `permission_level`, `decision_count`,
`success_rate`). Market data, balances snapshot, history and error lists are
not consulted by any claim under study and are omitted. -/
structure AgentContext where
  spending_limits : SpendingLimits
  permission_level : PermissionLevel
  decision_count : Nat
  success_rate : ℚ
  deriving DecidableEq, Repr

namespace AgentContext

/-- `AgentContext::new` (the fields kept in the model), with `Utc::now()`
passed in as `now`. -/
def new (now : Int) : AgentContext :=
  { spending_limits :=
      { daily_limit_sol := 10
        daily_limit_usd := 100
        per_transaction_limit_sol := 1
        remaining_daily_budget_sol := 10
        last_reset := now }
    permission_level := .basic
    decision_count := 0
    success_rate := 1 }

/-- `AgentContext::record_success` (fields kept in the model). -/
def record_success (ctx : AgentContext) : AgentContext :=
  { ctx with
    decision_count := ctx.decision_count + 1
    success_rate := ctx.success_rate * (95 / 100) + 1 * (5 / 100) }

/-- `AgentContext::is_action_allowed`. -/
def is_action_allowed (ctx : AgentContext) (sol_amount : ℚ) : Except Err Unit :=
  if ctx.spending_limits.per_transaction_limit_sol < sol_amount then
    .error .limitExceeded
  else if ctx.spending_limits.remaining_daily_budget_sol < sol_amount then
    .error .insufficientFunds
  else
    .ok ()

/-- `AgentContext::deduct_from_budget`: subtract, then clamp at zero. -/
def deduct_from_budget (ctx : AgentContext) (sol_amount : ℚ) : AgentContext :=
  let r := ctx.spending_limits.remaining_daily_budget_sol - sol_amount
  { ctx with
    spending_limits :=
      { ctx.spending_limits with
        remaining_daily_budget_sol := if r < 0 then 0 else r } }

/-- `chrono::Duration::num_days` on a duration of `d` seconds: `i64` division
by 86400, truncating toward zero. -/
def numDays (d : Int) : Int := d.tdiv 86400

/-- `AgentContext::reset_daily_budget_if_needed`, with `Utc::now()` passed in. -/
def reset_daily_budget_if_needed (ctx : AgentContext) (now : Int) : AgentContext :=
  let days_since_reset := numDays (now - ctx.spending_limits.last_reset)
  if 1 ≤ days_since_reset then
    { ctx with
      spending_limits :=
        { ctx.spending_limits with
          remaining_daily_budget_sol := ctx.spending_limits.daily_limit_sol
          last_reset := now } }
  else
    ctx

end AgentContext

/-- `encryption.rs`: `EncryptionAlgorithm`. -/
inductive EncryptionAlgorithm
  | aes256Gcm
  | ring
  deriving DecidableEq, Repr

/-- A symmetric AEAD key, modelled symbolically.

`derived p s i` is the PBKDF2-HMAC-SHA256 output `KeyDerivation::pbkdf2(p, s, i)`
(an injective function of its inputs in the ideal model — real collisions are
computationally infeasible), and `random id` is a fresh 32-byte key from
`EncryptionService::generate_key`, identified by the id of the OS randomness
draw that produced it. -/
inductive SymKey
  | derived (passphrase : Nat) (salt : List Nat) (iterations : Nat)
  | random (id : Nat)
  deriving DecidableEq, Repr

/-- A symbolic AEAD sealed box: the ciphertext produced by sealing `plaintext`
under `key`. The ideal AEAD open operation recovers `plaintext` exactly when it
is given the same `key` (otherwise the authentication tag check fails). -/
structure SymCipher where
  plaintext : List Nat
  key : SymKey
  deriving DecidableEq, Repr

/-- `encryption.rs`: `EncryptedData`. `ciphertext`, `nonce` and `salt` are
base64 strings of the underlying bytes in the source; base64 is an injective
total encoding, so the model stores the byte content directly (`ciphertext` as
a symbolic sealed box, the others as byte lists). -/
structure EncryptedData where
  ciphertext : SymCipher
  nonce : List Nat
  salt : List Nat
  algorithm : EncryptionAlgorithm
  kdf_iterations : Nat
  version : Nat
  deriving DecidableEq, Repr

namespace EncryptedData

/-- `EncryptedData::CURRENT_VERSION`. -/
def CURRENT_VERSION : Nat := 1

/-- `EncryptedData::new`: stamps the current format version. -/
def new (ciphertext : SymCipher) (nonce salt : List Nat)
    (algorithm : EncryptionAlgorithm) (kdf_iterations : Nat) : EncryptedData :=
  { ciphertext := ciphertext
    nonce := nonce
    salt := salt
    algorithm := algorithm
    kdf_iterations := kdf_iterations
    version := CURRENT_VERSION }

/-- `EncryptedData::validate`: reject any version other than the current one.
(The source then base64-decodes the three fields; in the byte-list model those
decodes always succeed for data built by the code.) -/
def validate (e : EncryptedData) : Except Err Unit :=
  if e.version ≠ CURRENT_VERSION then
    .error .unsupportedEncryptionVersion
  else
    .ok ()

end EncryptedData

namespace EncryptionService

/-- `ring::aead::NONCE_LEN`. -/
def NONCE_LEN : Nat := 12

/-- `EncryptionService::encrypt_aes_gcm`. The randomly generated salt and
nonce (`KeyDerivation::generate_salt()` / `Aes256Gcm::generate_nonce`) are
passed in as `saltR` / `nonceR`. The stored `kdf_iterations` is the hard-coded
default `100_000` of the source. -/
def encrypt_aes_gcm (plaintext : List Nat) (key : SymKey)
    (saltR nonceR : List Nat) : EncryptedData :=
  EncryptedData.new ⟨plaintext, key⟩ nonceR saltR .aes256Gcm 100000

/-- `EncryptionService::encrypt_ring`; same shape, Ring algorithm tag. -/
def encrypt_ring (plaintext : List Nat) (key : SymKey)
    (saltR nonceR : List Nat) : EncryptedData :=
  EncryptedData.new ⟨plaintext, key⟩ nonceR saltR .ring 100000

/-- `EncryptionService::encrypt`: dispatch on the service's algorithm. -/
def encrypt (algorithm : EncryptionAlgorithm) (plaintext : List Nat) (key : SymKey)
    (saltR nonceR : List Nat) : EncryptedData :=
  match algorithm with
  | .aes256Gcm => encrypt_aes_gcm plaintext key saltR nonceR
  | .ring => encrypt_ring plaintext key saltR nonceR

/-- `EncryptionService::decrypt_aes_gcm`: ideal AEAD open — succeeds with the
sealed plaintext iff `key` matches the sealing key. -/
def decrypt_aes_gcm (e : EncryptedData) (key : SymKey) : Except Err (List Nat) :=
  if e.ciphertext.key = key then
    .ok e.ciphertext.plaintext
  else
    .error .aeadOpenFailed

/-- `EncryptionService::decrypt_ring`: checks the nonce length against
`NONCE_LEN` first, then performs the ideal AEAD open. -/
def decrypt_ring (e : EncryptedData) (key : SymKey) : Except Err (List Nat) :=
  if e.nonce.length ≠ NONCE_LEN then
    .error .invalidNonceLength
  else if e.ciphertext.key = key then
    .ok e.ciphertext.plaintext
  else
    .error .aeadOpenFailed

/-- `EncryptionService::decrypt`: dispatch on the algorithm stored in the blob. -/
def decrypt (e : EncryptedData) (key : SymKey) : Except Err (List Nat) :=
  match e.algorithm with
  | .aes256Gcm => decrypt_aes_gcm e key
  | .ring => decrypt_ring e key

end EncryptionService

namespace EncryptionUtils

/-- `encryption.rs` `utils::encrypt_with_passphrase`.

The function draws TWO independent random salts: `saltKD` (its own
`KeyDerivation::generate_salt()`, used to derive the key) and `saltInner`
(drawn inside `EncryptionService::encrypt`, which is the salt actually stored
in the returned blob). `nonceR` is the random nonce drawn inside encrypt.
After encrypting it overwrites the blob's `kdf_iterations` with the supplied
count — but not the salt. -/
def encrypt_with_passphrase (plaintext : List Nat) (passphrase : Nat)
    (algorithm : EncryptionAlgorithm) (kdf_iterations : Nat)
    (saltKD saltInner nonceR : List Nat) : EncryptedData :=
  let key := SymKey.derived passphrase saltKD kdf_iterations
  let encrypted := EncryptionService.encrypt algorithm plaintext key saltInner nonceR
  { encrypted with kdf_iterations := kdf_iterations }

/-- `encryption.rs` `utils::decrypt_with_passphrase`: validate, then derive the
key from the passphrase and the blob's STORED salt and iteration count, then
decrypt. -/
def decrypt_with_passphrase (e : EncryptedData) (passphrase : Nat) :
    Except Err (List Nat) :=
  match e.validate with
  | .error err => .error err
  | .ok _ =>
    let key := SymKey.derived passphrase e.salt e.kdf_iterations
    EncryptionService.decrypt e key

end EncryptionUtils

/-- `keypair.rs`: `SecureKeypair`, reduced to its 32-byte secret seed (the
first half of `to_bytes()`; the public half is a function of it). -/
structure SecureKeypair where
  secret : List Nat
  deriving DecidableEq, Repr

/-- `keypair.rs`: `EncryptedKeypair` (creation timestamp omitted — never read
by the embedded operations). -/
structure EncryptedKeypair where
  encrypted_private_key : EncryptedData
  public_key : Nat
  version : Nat
  deriving DecidableEq, Repr

namespace SecureKeypair

/-- `SecureKeypair::CURRENT_VERSION`. -/
def CURRENT_VERSION : Nat := 1

/-- The ed25519 public key derived from a secret seed; opaque injective
derivation, modelled by an id on the seed. -/
def public_key_of (secret : List Nat) : Nat := secret.foldl (fun a b => a * 256 + b % 256) 1

/-- `SecureKeypair::encrypt`: encrypts the 32 secret bytes under a FRESHLY
GENERATED RANDOM key (`EncryptionService::generate_key()`, randomness id
`rKey`), ignoring the supplied passphrase. `saltR`/`nonceR` are the random
salt and nonce drawn inside `encrypt_aes_gcm`. -/
def encrypt (kp : SecureKeypair) (passphrase : Nat) (rKey : Nat)
    (saltR nonceR : List Nat) : EncryptedKeypair :=
  let _ := passphrase
  let encryption_key := SymKey.random rKey
  let encrypted_data :=
    EncryptionService.encrypt_aes_gcm kp.secret encryption_key saltR nonceR
  { encrypted_private_key := encrypted_data
    public_key := public_key_of kp.secret
    version := CURRENT_VERSION }

/-- `SecureKeypair::decrypt`: after the version check, builds its AEAD key as
`EncryptionService::generate_key()` — a fresh random key with randomness id
`rDummy` (`dummy_key` in the source), not derived from the passphrase nor from
the blob's stored salt/iteration count — and attempts the AEAD open with it. -/
def decrypt (encrypted : EncryptedKeypair) (passphrase : Nat) (rDummy : Nat) :
    Except Err SecureKeypair :=
  let _ := passphrase
  if encrypted.version ≠ CURRENT_VERSION then
    .error .unsupportedKeypairVersion
  else
    let dummy_key := SymKey.random rDummy
    match EncryptionService.decrypt encrypted.encrypted_private_key dummy_key with
    | .error err => .error err
    | .ok decrypted_bytes =>
      if decrypted_bytes.length ≠ 32 then
        .error .invalidDecryptedKeyLength
      else
        .ok ⟨decrypted_bytes⟩

end SecureKeypair

/-- `2 ^ 64`, the `u64` modulus. -/
def U64MOD : Nat := 18446744073709551616

/-- `transaction.rs`: `TransactionOptions`, restricted to the fields read by
the embedded operations (`skip_preflight`, `commitment`,
`blockhash_validity_slots` and `include_memo` are never consulted on the
modelled paths). -/
structure TransactionOptions where
  priority_fee : Option Nat
  compute_unit_limit : Option Nat
  compute_unit_price : Option Nat
  max_transaction_size : Nat
  max_signatures : Nat
  fee_payer : Option Nat
  deriving DecidableEq, Repr

/-- `TransactionOptions::default()`. -/
def TransactionOptions.default : TransactionOptions :=
  { priority_fee := none
    compute_unit_limit := some 200000
    compute_unit_price := none
    max_transaction_size := 1232
    max_signatures := 20
    fee_payer := none }

/-- A Solana instruction, reduced to the constructors `action_to_instructions`
can emit. -/
inductive Instr
  | memo (text : List Nat) (signer : Nat)
  | sysTransfer (source : Nat) (dest : Nat) (lamports : Nat)
  | createAssociatedTokenAccount (payer : Nat) (owner : Nat) (mint : Nat)
  | splTransfer (source : Nat) (dest : Nat) (owner : Nat) (amount : Nat)
  deriving DecidableEq, Repr

/-- The transaction assembled by `build_from_action`: its ordered instruction
list and resolved fee payer. The recent-blockhash placeholder and message
encoding are not observable by any claim. -/
structure BuiltTransaction where
  instructions : List Instr
  fee_payer : Nat
  deriving DecidableEq, Repr

/-- `transaction.rs`: `ValidationResult`. Error/warning strings are modelled
by their count only (the wallet path branches on `is_valid` alone). -/
structure ValidationResult where
  is_valid : Bool
  error_count : Nat
  warning_count : Nat
  estimated_fee : Nat
  estimated_compute_units : Nat
  transaction_size : Nat
  deriving DecidableEq, Repr

namespace TransactionBuilder

/-- `transaction.rs` `AgentContextExt::get_wallet_pubkey`: the source returns
the placeholder `Pubkey::new_from_array([0u8; 32])`. -/
def get_wallet_pubkey (ctx : AgentContext) : Nat :=
  let _ := ctx
  0

/-- `lamports_to_sol`: `lamports as f64 / 1e9`. -/
def lamports_to_sol (lamports : Nat) : ℚ := (lamports : ℚ) / 1000000000

/-- `TransactionBuilder::validate_permission`. -/
def validate_permission (action : AgentAction) (ctx : AgentContext) : Except Err Unit :=
  let required_permission := action.required_permission
  if ctx.permission_level.can_perform required_permission then
    .ok ()
  else
    .error .invalidPermission

/-- `TransactionBuilder::validate_spending_limits`. -/
def validate_spending_limits (action : AgentAction) (ctx : AgentContext) : Except Err Unit :=
  match action with
  | .transferSol _ amount _ => ctx.is_action_allowed (lamports_to_sol amount)
  | .transferToken _ _ amount _ => ctx.is_action_allowed ((amount : ℚ) / 1000000000)
  | .noOp => .ok ()
  | _ => ctx.is_action_allowed (1 / 10)

/-- `TransactionBuilder::build_transfer_sol_instructions`: optional non-empty
memo, then the system transfer. -/
def build_transfer_sol_instructions (source dest : Nat) (amount : Nat)
    (memo : Option (List Nat)) : List Instr :=
  let memoPart : List Instr :=
    match memo with
    | some memo_text => if memo_text ≠ [] then [.memo memo_text source] else []
    | none => []
  memoPart ++ [.sysTransfer source dest amount]

/-- `get_associated_token_address(owner, mint)`: opaque injective pairing. -/
def associated_token_address (owner mint : Nat) : Nat := (owner + mint) * (owner + mint + 1) / 2 + mint

/-- `TransactionBuilder::build_transfer_token_instructions`: optional memo,
unconditional destination-ATA creation, then the SPL transfer. -/
def build_transfer_token_instructions (owner mint dest : Nat) (amount : Nat)
    (memo : Option (List Nat)) : List Instr :=
  let source_token_account := associated_token_address owner mint
  let destination_token_account := associated_token_address dest mint
  let memoPart : List Instr :=
    match memo with
    | some memo_text => if memo_text ≠ [] then [.memo memo_text owner] else []
    | none => []
  memoPart ++
    [.createAssociatedTokenAccount owner dest mint,
     .splTransfer source_token_account destination_token_account owner amount]

/-- `TransactionBuilder::action_to_instructions`: SOL transfer, token transfer
and no-op are implemented; every other action variant is rejected with
`Error::NotSupported`. -/
def action_to_instructions (action : AgentAction) (ctx : AgentContext) :
    Except Err (List Instr) :=
  match action with
  | .transferSol dest amount memo =>
    .ok (build_transfer_sol_instructions (get_wallet_pubkey ctx) dest amount memo)
  | .transferToken mint dest amount memo =>
    .ok (build_transfer_token_instructions (get_wallet_pubkey ctx) mint dest amount memo)
  | .noOp => .ok []
  | _ => .error .notSupported

/-- `TransactionBuilder::build_from_action`. Checks run in source order:
permission, spending limits, action translation, instruction-count ceiling,
fee-payer resolution, message assembly, size ceiling. `txSizeOf` stands for
`bincode::serialized_size` of the assembled transaction (an external
serialization-library computation). The source resolves the fee payer as
`options.fee_payer` falling back (via the always-`None`
`get_default_payer`) to the wallet pubkey. -/
def build_from_action (action : AgentAction) (ctx : AgentContext)
    (options : TransactionOptions) (txSizeOf : BuiltTransaction → Nat) :
    Except Err BuiltTransaction :=
  match validate_permission action ctx with
  | .error err => .error err
  | .ok _ =>
    match validate_spending_limits action ctx with
    | .error err => .error err
    | .ok _ =>
      match action_to_instructions action ctx with
      | .error err => .error err
      | .ok instructions =>
        if 20 < instructions.length then
          .error .validationFailed
        else
          let fee_payer := options.fee_payer.getD (get_wallet_pubkey ctx)
          let transaction : BuiltTransaction := ⟨instructions, fee_payer⟩
          if options.max_transaction_size < txSizeOf transaction then
            .error .validationFailed
          else
            .ok transaction

/-- `TransactionBuilder::estimate_transaction_fee`, in `u64` arithmetic
(release-mode wrapping): `5000 * signature_count + priority_fee +
compute_unit_price * compute_unit_limit / 1_000_000`, where the compute part
is 0 unless BOTH price and limit are configured. -/
def estimate_transaction_fee (signature_count : Nat) (options : TransactionOptions) : Nat :=
  let base_fee := 5000 * signature_count % U64MOD
  let priority_fee := options.priority_fee.getD 0
  let compute_fee :=
    match options.compute_unit_price, options.compute_unit_limit with
    | some compute_unit_price, some compute_unit_limit =>
      compute_unit_price * compute_unit_limit % U64MOD / 1000000
    | _, _ => 0
  ((base_fee + priority_fee) % U64MOD + compute_fee) % U64MOD

/-- `TransactionBuilder::estimate_compute_units`: `instruction_count * 10_000`. -/
def estimate_compute_units (instruction_count : Nat) : Nat :=
  instruction_count * 10000

/-- `TransactionBuilder::validate_transaction`. `transaction_size` and
`signature_count` are observations of the serialized transaction (the unsigned
wallet transaction carries exactly one required signature slot); all
violations are collected, never short-circuited. -/
def validate_transaction (transaction_size signature_count instruction_count : Nat)
    (fee_payer : Nat) (ctx : AgentContext) (options : TransactionOptions) :
    ValidationResult :=
  let sizeErr := options.max_transaction_size < transaction_size
  let sigErr := options.max_signatures < signature_count
  let feePayerErr :=
    fee_payer ≠ get_wallet_pubkey ctx ∧
      ¬ ctx.permission_level.can_perform .administrator
  let error_count :=
    (if sizeErr then 1 else 0) + (if sigErr then 1 else 0) +
      (if feePayerErr then 1 else 0)
  { is_valid := error_count = 0
    error_count := error_count
    warning_count := 0
    estimated_fee := estimate_transaction_fee signature_count options
    estimated_compute_units := estimate_compute_units instruction_count
    transaction_size := transaction_size }

end TransactionBuilder

/-- `(x * 1e9).round() as u64` on a non-negative-or-small `f64`: round half
away from zero, saturate negatives to 0 and overflow to `u64::MAX`. -/
def solToLamportsRounded (sol : ℚ) : Nat :=
  min (Int.toNat ⌊sol * 1000000000 + 1 / 2⌋) (U64MOD - 1)

namespace Wallet

/-- The environment of one `Wallet::transfer_sol` call: everything the call
observes from outside the agent context. -/
structure TransferEnv where
  /-- Destination pubkey. -/
  dest : Nat
  /-- Amount in SOL (`f64` argument, exact in the model). -/
  amount : ℚ
  /-- Optional memo bytes. -/
  memo : Option (List Nat)
  /-- SOL balance reported by `get_balance` (an RPC observation). -/
  balance : ℚ
  /-- `bincode::serialized_size` of the assembled transaction. -/
  txSizeOf : BuiltTransaction → Nat
  /-- Whether the prepare (blockhash fetch + sign) and send RPC steps succeed. -/
  netOk : Bool

/-- `Wallet::transfer_sol`, source order: lamports conversion and zero check,
balance check, `is_action_allowed`, `build_from_action`,
`validate_transaction` (fail unless `is_valid`), prepare+send (the `netOk`
environment flag), and only on success `deduct_from_budget` followed by
`record_success`. Every failure path returns the context unchanged. Returns
the call result (signature as opaque `0`) and the updated context. -/
def transfer_sol (ctx : AgentContext) (env : TransferEnv) :
    Except Err Nat × AgentContext :=
  let amount_lamports := solToLamportsRounded env.amount
  if amount_lamports = 0 then
    (.error .invalidAmount, ctx)
  else
    let balance_lamports := solToLamportsRounded env.balance
    if balance_lamports < amount_lamports then
      (.error .insufficientFunds, ctx)
    else
      let action := AgentAction.transferSol env.dest amount_lamports env.memo
      match ctx.is_action_allowed env.amount with
      | .error err => (.error err, ctx)
      | .ok _ =>
        match TransactionBuilder.build_from_action action ctx
            TransactionOptions.default env.txSizeOf with
        | .error err => (.error err, ctx)
        | .ok transaction =>
          let validation := TransactionBuilder.validate_transaction
            (env.txSizeOf transaction) 1 transaction.instructions.length
            transaction.fee_payer ctx TransactionOptions.default
          if validation.is_valid = false then
            (.error .transactionValidationFailed, ctx)
          else if env.netOk then
            (.ok 0, ((ctx.deduct_from_budget env.amount).record_success))
          else
            (.error .rpcSendFailed, ctx)

/-- A sequence of `transfer_sol` calls: returns whether EVERY call succeeded,
and the final agent context. -/
def run_transfers (ctx : AgentContext) : List TransferEnv → Bool × AgentContext
  | [] => (true, ctx)
  | env :: rest =>
    let step := transfer_sol ctx env
    let tail := run_transfers step.2 rest
    ((step.1.isOk && tail.1), tail.2)

end Wallet

/-- `config.rs`: `RpcEndpoint` (url opaque, priority `u32`; lower preferred). -/
structure RpcEndpoint where
  url : Nat
  priority : Nat
  deriving DecidableEq, Repr

/-- `rpc.rs`: `EndpointHealth` (timestamps of last success/failure omitted —
never branched on). -/
structure EndpointHealth where
  consecutive_failures : Nat
  total_requests : Nat
  total_errors : Nat
  success_rate : ℚ
  deriving DecidableEq, Repr

namespace EndpointHealth

/-- `EndpointHealth::new()`. -/
def new : EndpointHealth :=
  { consecutive_failures := 0
    total_requests := 0
    total_errors := 0
    success_rate := 1 }

/-- `EndpointHealth::record_success`: reset the failure streak, bump the
request count, EMA toward 1. -/
def record_success (h : EndpointHealth) : EndpointHealth :=
  { h with
    consecutive_failures := 0
    total_requests := h.total_requests + 1
    success_rate := h.success_rate * (95 / 100) + 1 * (5 / 100) }

/-- `EndpointHealth::record_failure`: bump the failure streak, request and
error counts, EMA toward 0. -/
def record_failure (h : EndpointHealth) : EndpointHealth :=
  { h with
    consecutive_failures := h.consecutive_failures + 1
    total_requests := h.total_requests + 1
    total_errors := h.total_errors + 1
    success_rate := h.success_rate * (95 / 100) + 0 * (5 / 100) }

/-- `EndpointHealth::is_healthy`. -/
def is_healthy (h : EndpointHealth) (max_consecutive_failures : Nat) : Bool :=
  h.consecutive_failures < max_consecutive_failures

end EndpointHealth

/-- The `RpcClient` state relevant to failover: the configured endpoints (the
source iterates the pool map's keys and sorts them by ascending priority; the
model keeps this list already in that order), the per-url health map, the
current endpoint, and the `endpoint_switch_count` metric. -/
structure RpcState where
  endpoints : List RpcEndpoint
  health : Nat → EndpointHealth
  current : RpcEndpoint
  switch_count : Nat

namespace RpcState

/-- Point update of the health map at `url`. -/
def updateHealth (st : RpcState) (url : Nat) (f : EndpointHealth → EndpointHealth) :
    RpcState :=
  { st with health := fun u => if u = url then f (st.health u) else st.health u }

/-- `RpcClient::record_success` (health part). -/
def record_success (st : RpcState) (url : Nat) : RpcState :=
  st.updateHealth url EndpointHealth.record_success

/-- `RpcClient::record_failure` (health part). -/
def record_failure (st : RpcState) (url : Nat) : RpcState :=
  st.updateHealth url EndpointHealth.record_failure

/-- `RpcClient::should_switch_endpoint`: too many consecutive failures, or a
low smoothed success rate with enough samples. -/
def should_switch_endpoint (st : RpcState) (url : Nat) : Bool :=
  let h := st.health url
  if 3 ≤ h.consecutive_failures then
    true
  else if h.success_rate < 1 / 2 ∧ 10 < h.total_requests then
    true
  else
    false

/-- `RpcClient::switch_to_next_endpoint`: scan the endpoints in ascending
priority order for the first whose health satisfies `is_healthy(3)`; make it
current and bump the switch metric, or fail with the no-healthy-endpoints
error. -/
def switch_to_next_endpoint (st : RpcState) : Except Err RpcState :=
  match st.endpoints.find? (fun e => (st.health e.url).is_healthy 3) with
  | some e =>
    .ok { st with current := e, switch_count := st.switch_count + 1 }
  | none => .error .noHealthyEndpoints

end RpcState

/-- The retry loop body of `RpcClient::execute_with_failover`.

`op attempt url` is the outcome of running the caller's operation against
endpoint `url` on the given (0-based) global attempt; `remaining` counts the
loop iterations left (`max_retries + 1 - retries`, so the `while retries <=
max_retries` guard). On failure the health is recorded, and if the switch
policy fires, a failed switch is only logged (`warn!`) — the loop continues
on the unchanged state. Returns the result, the final state, and the number
of attempts actually executed. -/
def executeGo (op : Nat → Nat → Bool) : Nat → Nat → RpcState →
    Except Err Unit × RpcState × Nat
  | 0, attempt, st => (.error .rpcAllRetriesFailed, st, attempt)
  | remaining + 1, attempt, st =>
    let url := st.current.url
    if op attempt url then
      (.ok (), st.record_success url, attempt + 1)
    else
      let st1 := st.record_failure url
      let st2 :=
        if st1.should_switch_endpoint url then
          match st1.switch_to_next_endpoint with
          | .ok switched => switched
          | .error _ => st1
        else st1
      executeGo op remaining (attempt + 1) st2

/-- `RpcClient::execute_with_failover`: run the loop with
`max_retries + 1` iterations available. -/
def execute_with_failover (op : Nat → Nat → Bool) (max_retries : Nat)
    (st : RpcState) : Except Err Unit × RpcState × Nat :=
  executeGo op (max_retries + 1) 0 st

/-- `storage.rs`: `WalletMetadata` (tags/custom data omitted — `save_wallet`
always writes them empty). Wallet names, descriptions and pubkeys are opaque
`Nat`s; timestamps are seconds. -/
structure WalletMetadata where
  name : Nat
  public_key : Nat
  created_at : Int
  last_accessed : Int
  last_modified : Int
  wallet_version : Nat
  description : Option Nat
  deriving DecidableEq, Repr

/-- `storage.rs`: `WalletStorage`, the serialized on-disk record
(`version: "1.0"` is constant and omitted). -/
structure WalletStorage where
  encrypted_data : EncryptedData
  metadata : WalletMetadata
  deriving DecidableEq, Repr

/-- The parts of the file system a `StorageService` touches: the live record
per wallet name (`{path}/{name}.json`, temp-then-rename writes modelled as an
atomic update) and the backup directory keyed by wallet name and the
second-resolution timestamp baked into the backup file name
(`{backup_path}/{name}_{timestamp}.json`). -/
structure StorageFs where
  live : Nat → Option WalletStorage
  backups : Nat → Int → Option WalletStorage

namespace StorageService

/-- The fresh `WalletStorage` record `save_wallet` assembles (all three
timestamps set to `Utc::now()`). -/
def mkSavedRecord (name : Nat) (encrypted_data : EncryptedData) (public_key : Nat)
    (description : Option Nat) (now : Int) : WalletStorage :=
  { encrypted_data := encrypted_data
    metadata :=
      { name := name
        public_key := public_key
        created_at := now
        last_accessed := now
        last_modified := now
        wallet_version := 1
        description := description } }

/-- `StorageService::backup_wallet` at wall-clock time `t`: copy the CURRENT
live record to the backup entry named by `t`, or fail with `WalletNotFound`
if there is no live record. -/
def backup_wallet (fs : StorageFs) (name : Nat) (t : Int) : Except Err StorageFs :=
  match fs.live name with
  | none => .error .walletNotFound
  | some record =>
    .ok { fs with
          backups := fun n t2 =>
            if n = name ∧ t2 = t then some record else fs.backups n t2 }

/-- `StorageService::save_wallet` at time `now`: serialize the fresh record,
write it over the live path (temp file + rename, atomic in the model), and
only THEN call `backup_wallet` — so the backup copies the newly written
record. -/
def save_wallet (fs : StorageFs) (name : Nat) (encrypted_data : EncryptedData)
    (public_key : Nat) (description : Option Nat) (now : Int) :
    Except Err StorageFs :=
  let record := mkSavedRecord name encrypted_data public_key description now
  let fs1 : StorageFs :=
    { fs with live := fun n => if n = name then some record else fs.live n }
  backup_wallet fs1 name now

/-- `StorageService::delete_wallet`: fail if absent; back up the current
record (backup file stamped `t`); remove the live file; then re-compute
`backup_file_path` at the CURRENT time `t2` and remove that backup entry if it
exists (when `t2 = t` — same wall-clock second — this deletes the backup just
taken). -/
def delete_wallet (fs : StorageFs) (name : Nat) (t t2 : Int) : Except Err StorageFs :=
  match fs.live name with
  | none => .error .walletNotFound
  | some _ =>
    match backup_wallet fs name t with
    | .error err => .error err
    | .ok fs1 =>
      let fs2 : StorageFs :=
        { fs1 with live := fun n => if n = name then none else fs1.live n }
      let fs3 : StorageFs :=
        if (fs2.backups name t2).isSome then
          { fs2 with
            backups := fun n t3 =>
              if n = name ∧ t3 = t2 then none else fs2.backups n t3 }
        else fs2
      .ok fs3

end StorageService

/-- The action variants `action_to_instructions` rejects as not implemented
(everything except SOL transfer, token transfer and no-op). -/
def AgentAction.is_unsupported_variant : AgentAction → Bool
  | .transferSol .. => false
  | .transferToken .. => false
  | .noOp => false
  | _ => true

/-- A single-endpoint `RpcClient` state as built by `RpcClient::new` from a
one-endpoint configuration: the endpoint is current, its health is fresh. -/
def oneEndpointState : RpcState :=
  { endpoints := [⟨0, 1⟩]
    health := fun _ => EndpointHealth.new
    current := ⟨0, 1⟩
    switch_count := 0 }

/-- A concrete encrypted blob (contents arbitrary), used as the pre-existing
on-disk record in the storage scenarios. -/
def blobA : EncryptedData :=
  EncryptedData.new ⟨[1], SymKey.derived 3 [4] 1000⟩ [5] [6] .aes256Gcm 1000

/-- A second, different concrete encrypted blob (the newly saved contents). -/
def blobB : EncryptedData :=
  EncryptedData.new ⟨[2], SymKey.derived 3 [7] 1000⟩ [8] [9] .aes256Gcm 1000

/-- The pre-existing on-disk record of wallet `0` in the storage scenarios. -/
def oldRecord : WalletStorage := StorageService.mkSavedRecord 0 blobA 9 none (-50)

/-- A file system holding exactly one live wallet record (name `0`,
content `oldRecord`) and no backups. -/
def fsOne : StorageFs :=
  { live := fun n => if n = 0 then some oldRecord else none
    backups := fun _ _ => none }

/-- A single-endpoint client state whose only endpoint has accumulated three
consecutive failures — no endpoint satisfies the health predicate. -/
def unhealthyEndpointState : RpcState :=
  { endpoints := [⟨0, 1⟩]
    health := fun _ =>
      { consecutive_failures := 3
        total_requests := 3
        total_errors := 3
        success_rate := 1 }
    current := ⟨0, 1⟩
    switch_count := 0 }

/-- A transfer environment: 0.5 SOL to pubkey `5`, ample balance, the network
steps succeed. -/
def envHalf : Wallet.TransferEnv :=
  { dest := 5, amount := 1 / 2, memo := none, balance := 5,
    txSizeOf := fun _ => 300, netOk := true }

/-- A transfer environment: 0.25 SOL to pubkey `6`, ample balance, the network
steps succeed. -/
def envQuarter : Wallet.TransferEnv :=
  { dest := 6, amount := 1 / 4, memo := none, balance := 5,
    txSizeOf := fun _ => 300, netOk := true }

/-- A transfer environment identical to `envHalf` except that the
prepare/send network step fails. -/
def envSendFails : Wallet.TransferEnv :=
  { dest := 5, amount := 1 / 2, memo := none, balance := 5,
    txSizeOf := fun _ => 300, netOk := false }

/-! ## Theorems -/

theorem isOk_ok_eq {ε α : Type} (a : α) : (Except.ok a : Except ε α).isOk = true := rfl

theorem isOk_error_eq {ε α : Type} (e : ε) : (Except.error e : Except ε α).isOk = false := rfl

/-- C4: Permission levels are totally ordered `ReadOnly < Basic < Advanced <
Full < Administrator` (by the derived declaration-order comparison);
`can_perform level required` holds exactly when `level ≥ required`; approval
is monotone in the level; and a Basic-level context attempting the
Advanced-required token transfer fails with a permission error. -/
theorem permission_order_can_perform_monotone :
    (∀ l r : PermissionLevel, l.can_perform r = true ↔ r.toNat ≤ l.toNat) ∧
    (PermissionLevel.readOnly.toNat < PermissionLevel.basic.toNat ∧
      PermissionLevel.basic.toNat < PermissionLevel.advanced.toNat ∧
      PermissionLevel.advanced.toNat < PermissionLevel.full.toNat ∧
      PermissionLevel.full.toNat < PermissionLevel.administrator.toNat) ∧
    (∀ l1 l2 r : PermissionLevel, l2.toNat ≤ l1.toNat →
      l2.can_perform r = true → l1.can_perform r = true) ∧
    (∀ ctx : AgentContext, ctx.permission_level = .basic →
      ∀ mint dest amount memo,
        TransactionBuilder.validate_permission
          (.transferToken mint dest amount memo) ctx = .error .invalidPermission) := by
  refine ⟨by decide, by decide, by decide, ?_⟩
  intro ctx h mint dest amount memo
  simp [TransactionBuilder.validate_permission, AgentAction.required_permission, h,
    PermissionLevel.can_perform, PermissionLevel.toNat]

theorem permission_order_witness :
    PermissionLevel.can_perform .full .basic = true ∧
    TransactionBuilder.validate_permission (.transferToken 1 2 3 none)
      (AgentContext.new 0) = .error .invalidPermission :=
  ⟨permission_order_can_perform_monotone.2.2.1 .full .basic .basic (by decide) (by decide),
   permission_order_can_perform_monotone.2.2.2 (AgentContext.new 0) rfl 1 2 3 none⟩

/-- C8: an `EncryptedData` blob whose version is not the current supported
version fails `validate`, and `decrypt_with_passphrase` rejects it with that
same error before any decryption is attempted. -/
theorem encrypted_blob_version_guard :
    ∀ (e : EncryptedData) (passphrase : Nat),
      e.version ≠ EncryptedData.CURRENT_VERSION →
      e.validate = .error .unsupportedEncryptionVersion ∧
      EncryptionUtils.decrypt_with_passphrase e passphrase =
        .error .unsupportedEncryptionVersion := by
  intro e passphrase h
  have hv : e.validate = .error .unsupportedEncryptionVersion := by
    simp [EncryptedData.validate, h]
  exact ⟨hv, by simp [EncryptionUtils.decrypt_with_passphrase, hv]⟩

theorem encrypted_blob_version_guard_witness :
    EncryptedData.validate
        { ciphertext := ⟨[1], .random 0⟩, nonce := [2], salt := [3],
          algorithm := .aes256Gcm, kdf_iterations := 1000, version := 255 } =
      .error .unsupportedEncryptionVersion ∧
    EncryptionUtils.decrypt_with_passphrase
        { ciphertext := ⟨[1], .random 0⟩, nonce := [2], salt := [3],
          algorithm := .aes256Gcm, kdf_iterations := 1000, version := 255 } 7 =
      .error .unsupportedEncryptionVersion :=
  encrypted_blob_version_guard
    { ciphertext := ⟨[1], .random 0⟩, nonce := [2], salt := [3],
      algorithm := .aes256Gcm, kdf_iterations := 1000, version := 255 } 7 (by decide)

/-- C9: the estimated fee is `5000 * signature_count + priority_fee +
compute_unit_price * compute_unit_limit / 1_000_000` when both compute-budget
options are configured (absent `u64` overflow); in particular a
single-signature transaction with no priority fee, a 200,000 compute-unit
limit and zero compute price estimates exactly 5000 lamports (as does the
default-options case, where the compute price is unset). -/
theorem estimate_fee_formula :
    (∀ sigs pr p l maxsz maxsig fp,
      5000 * sigs < U64MOD →
      p * l < U64MOD →
      5000 * sigs + pr + p * l / 1000000 < U64MOD →
      TransactionBuilder.estimate_transaction_fee sigs
          ⟨some pr, some l, some p, maxsz, maxsig, fp⟩ =
        5000 * sigs + pr + p * l / 1000000) ∧
    TransactionBuilder.estimate_transaction_fee 1
        { TransactionOptions.default with compute_unit_price := some 0 } = 5000 ∧
    TransactionBuilder.estimate_transaction_fee 1 TransactionOptions.default = 5000 := by
  refine ⟨?_, by decide, by decide⟩
  intro sigs pr p l maxsz maxsig fp h1 h2 h3
  have hbp : 5000 * sigs + pr < U64MOD :=
    lt_of_le_of_lt (Nat.le_add_right _ _) h3
  simp only [TransactionBuilder.estimate_transaction_fee, Option.getD_some]
  rw [Nat.mod_eq_of_lt h1, Nat.mod_eq_of_lt h2, Nat.mod_eq_of_lt hbp,
    Nat.mod_eq_of_lt h3]

theorem estimate_fee_formula_witness :
    TransactionBuilder.estimate_transaction_fee 1
        ⟨some 10, some 1000000, some 2, 1232, 20, none⟩ =
      5000 * 1 + 10 + 2 * 1000000 / 1000000 :=
  estimate_fee_formula.1 1 10 2 1000000 1232 20 none (by decide) (by decide) (by decide)

/-- C10 counterexample: for a context whose permission level does not reach
the action's requirement, `build_from_action` on a `SwapTokens` action fails
with the PERMISSION error, not the `NotSupported` error the claim predicts
"regardless of the context's permission level". -/
theorem build_unsupported_counterexample :
    TransactionBuilder.build_from_action (.swapTokens 1 2 5 0) (AgentContext.new 0)
        TransactionOptions.default (fun _ => 100) = .error .invalidPermission ∧
    Err.invalidPermission ≠ Err.notSupported :=
  ⟨rfl, by decide⟩

/-- C10 (amended): for every action variant other than `TransferSol`,
`TransferToken` and `NoOp`, `build_from_action` returns the `NotSupported`
error PROVIDED the permission check and the spending-limit check (a default
0.1-SOL charge for such actions) both pass; with insufficient permission or
budget the corresponding policy error is returned first. -/
theorem build_unsupported_amended :
    ∀ (action : AgentAction) (ctx : AgentContext) (options : TransactionOptions)
      (txSizeOf : BuiltTransaction → Nat),
      action.is_unsupported_variant = true →
      TransactionBuilder.validate_permission action ctx = .ok () →
      TransactionBuilder.validate_spending_limits action ctx = .ok () →
      TransactionBuilder.build_from_action action ctx options txSizeOf =
        .error .notSupported := by
  intro action ctx options txSizeOf hu hp hs
  cases action <;>
    simp_all [TransactionBuilder.build_from_action,
      TransactionBuilder.action_to_instructions, AgentAction.is_unsupported_variant]

theorem build_unsupported_amended_witness :
    TransactionBuilder.build_from_action (.swapTokens 1 2 5 0)
        { AgentContext.new 0 with permission_level := .advanced }
        TransactionOptions.default (fun _ => 100) = .error .notSupported :=
  build_unsupported_amended (.swapTokens 1 2 5 0)
    { AgentContext.new 0 with permission_level := .advanced }
    TransactionOptions.default (fun _ => 100) (by decide) (by rfl)
    (by with_unfolding_all rfl)

/-- C1: `SecureKeypair::decrypt` builds its AEAD key as a freshly generated
random key — its result is independent of the supplied passphrase and of the
blob's stored salt and iteration count — and consequently, for fresh
randomness (the decrypt-time draw differs from the encrypt-time draw, which
holds for independent 256-bit draws), `decrypt(encrypt(kp, w), w)` fails at
the AEAD open step and cannot recover the private key. -/
theorem keypair_decrypt_uses_fresh_random_key :
    (∀ (enc : EncryptedKeypair) (p q rDummy : Nat),
      SecureKeypair.decrypt enc p rDummy = SecureKeypair.decrypt enc q rDummy) ∧
    (∀ (enc : EncryptedKeypair) (p rDummy : Nat) (s : List Nat) (it : Nat),
      SecureKeypair.decrypt
        { enc with
          encrypted_private_key :=
            { enc.encrypted_private_key with salt := s, kdf_iterations := it } }
        p rDummy =
      SecureKeypair.decrypt enc p rDummy) ∧
    (∀ (kp : SecureKeypair) (p rKey rDummy : Nat) (saltR nonceR : List Nat),
      rKey ≠ rDummy →
      SecureKeypair.decrypt (SecureKeypair.encrypt kp p rKey saltR nonceR) p rDummy =
        .error .aeadOpenFailed) := by
  refine ⟨fun enc p q rDummy => rfl, ?_, ?_⟩
  · intro enc p rDummy s it
    rcases enc with ⟨⟨ct, non, sal, alg, kdf, ver⟩, pk, v⟩
    rfl
  · intro kp p rKey rDummy saltR nonceR h
    simp [SecureKeypair.encrypt, SecureKeypair.decrypt, SecureKeypair.CURRENT_VERSION,
      EncryptionService.encrypt_aes_gcm, EncryptedData.new, EncryptedData.CURRENT_VERSION,
      EncryptionService.decrypt, EncryptionService.decrypt_aes_gcm, h]

theorem keypair_decrypt_fresh_key_witness :
    (0 : Nat) ≠ 1 ∧
    SecureKeypair.decrypt (SecureKeypair.encrypt ⟨[1, 2]⟩ 7 0 [3] [4]) 7 1 =
      .error .aeadOpenFailed :=
  ⟨by decide, keypair_decrypt_uses_fresh_random_key.2.2 ⟨[1, 2]⟩ 7 0 1 [3] [4] (by decide)⟩

/-- C2 (failing input): the round trip
`decrypt_with_passphrase(encrypt_with_passphrase(P, W, alg, iters), W)` fails,
because `encrypt_with_passphrase` derives its key from one random salt (here
`[0]`) while the blob stores the different random salt drawn inside
`EncryptionService::encrypt` (here `[1]`); decryption derives its key from the
stored salt and the AEAD open rejects the ciphertext. Evaluated at plaintext
`[1,2,3]`, passphrase `7`, AES-256-GCM, 100000 iterations, with the two
independent salt draws distinct (which holds with overwhelming probability for
16-byte random salts). -/
theorem passphrase_roundtrip_fails_failing_input :
    (EncryptionUtils.encrypt_with_passphrase [1, 2, 3] 7 .aes256Gcm 100000
        [0] [1] [2]).salt = [1] ∧
    ([0] : List Nat) ≠ [1] ∧
    EncryptionUtils.decrypt_with_passphrase
        (EncryptionUtils.encrypt_with_passphrase [1, 2, 3] 7 .aes256Gcm 100000
          [0] [1] [2]) 7 =
      .error .aeadOpenFailed :=
  ⟨rfl, by decide, rfl⟩

/-- C7: `reset_daily_budget_if_needed` restores the remaining budget to the
configured daily cap and moves `last_reset` to `now` exactly when the
truncated day count since the last reset is at least 1, performing at most
one reset per call; when less than one day has elapsed the context is
returned unchanged. -/
theorem daily_budget_reset_exact :
    ∀ (ctx : AgentContext) (now : Int),
      (1 ≤ AgentContext.numDays (now - ctx.spending_limits.last_reset) →
        ctx.reset_daily_budget_if_needed now =
          { ctx with
            spending_limits :=
              { ctx.spending_limits with
                remaining_daily_budget_sol := ctx.spending_limits.daily_limit_sol
                last_reset := now } }) ∧
      (AgentContext.numDays (now - ctx.spending_limits.last_reset) < 1 →
        ctx.reset_daily_budget_if_needed now = ctx) := by
  intro ctx now
  constructor
  · intro h
    simp [AgentContext.reset_daily_budget_if_needed, h]
  · intro h
    simp [AgentContext.reset_daily_budget_if_needed, not_le.mpr h]

theorem daily_budget_reset_witness :
    (AgentContext.new 0).reset_daily_budget_if_needed 90000 =
      { AgentContext.new 0 with
        spending_limits :=
          { (AgentContext.new 0).spending_limits with
            remaining_daily_budget_sol := (AgentContext.new 0).spending_limits.daily_limit_sol
            last_reset := 90000 } } ∧
    (AgentContext.new 0).reset_daily_budget_if_needed 100 = AgentContext.new 0 :=
  ⟨(daily_budget_reset_exact (AgentContext.new 0) 90000).1 (by decide),
   (daily_budget_reset_exact (AgentContext.new 0) 100).2 (by decide)⟩

/-- C5 counterexample: one configured endpoint, an operation that always
fails, `max_retries = 3`. After the third failure no endpoint satisfies the
health predicate, yet execution does NOT surface the no-healthy-endpoint
error and does NOT stop: it runs all `max_retries + 1 = 4` attempts against
the unhealthy endpoint (never switching) and returns the aggregated
all-retries-failed error. -/
theorem failover_no_healthy_counterexample :
    (execute_with_failover (fun _ _ => false) 3 oneEndpointState).1 =
      .error .rpcAllRetriesFailed ∧
    Err.rpcAllRetriesFailed ≠ Err.noHealthyEndpoints ∧
    (execute_with_failover (fun _ _ => false) 3 oneEndpointState).2.2 = 4 ∧
    (execute_with_failover (fun _ _ => false) 3 oneEndpointState).2.1.switch_count = 0 ∧
    ((execute_with_failover (fun _ _ => false) 3 oneEndpointState).2.1.health 0).consecutive_failures = 4 ∧
    RpcState.switch_to_next_endpoint
        ((execute_with_failover (fun _ _ => false) 3 oneEndpointState).2.1) =
      .error .noHealthyEndpoints :=
  ⟨by with_unfolding_all rfl, by decide, by with_unfolding_all rfl,
   by with_unfolding_all rfl, by with_unfolding_all decide, by with_unfolding_all rfl⟩

theorem executeGo_of_op_false (op : Nat → Nat → Bool) (hop : ∀ a u, op a u = false) :
    ∀ (remaining attempt : Nat) (st : RpcState),
      (executeGo op remaining attempt st).1 = .error .rpcAllRetriesFailed ∧
      (executeGo op remaining attempt st).2.2 = attempt + remaining := by
  intro remaining
  induction remaining with
  | zero => intro attempt st; exact ⟨rfl, rfl⟩
  | succ n ih =>
    intro attempt st
    simp only [executeGo, hop, Bool.false_eq_true, if_false]
    constructor
    · exact (ih _ _).1
    · rw [(ih _ _).2]; omega

/-- C5 (amended): when no configured endpoint satisfies the health predicate,
`switch_to_next_endpoint` itself fails with the no-healthy-endpoints error —
but `execute_with_failover` swallows that error (it only logs a warning) and
keeps retrying against the current unhealthy endpoint; with an operation that
always fails it executes all `max_retries + 1` attempts and then returns the
aggregated all-retries-failed error, never surfacing the no-healthy-endpoint
error. -/
theorem failover_swallows_switch_error :
    (∀ st : RpcState,
      (∀ e ∈ st.endpoints, (st.health e.url).is_healthy 3 = false) →
      st.switch_to_next_endpoint = .error .noHealthyEndpoints) ∧
    (∀ (op : Nat → Nat → Bool) (max_retries : Nat) (st : RpcState),
      (∀ a u, op a u = false) →
      (execute_with_failover op max_retries st).1 = .error .rpcAllRetriesFailed ∧
      (execute_with_failover op max_retries st).2.2 = max_retries + 1) := by
  constructor
  · intro st h
    unfold RpcState.switch_to_next_endpoint
    have hnone : st.endpoints.find? (fun e => (st.health e.url).is_healthy 3) = none := by
      rw [List.find?_eq_none]
      intro e he
      simp [h e he]
    rw [hnone]
  · intro op max_retries st hop
    have h := executeGo_of_op_false op hop (max_retries + 1) 0 st
    exact ⟨h.1, by rw [execute_with_failover, h.2]; omega⟩

theorem failover_swallows_switch_error_witness :
    RpcState.switch_to_next_endpoint unhealthyEndpointState =
      .error .noHealthyEndpoints ∧
    (execute_with_failover (fun _ _ => false) 2 oneEndpointState).1 =
      .error .rpcAllRetriesFailed ∧
    (execute_with_failover (fun _ _ => false) 2 oneEndpointState).2.2 = 2 + 1 :=
  ⟨failover_swallows_switch_error.1 unhealthyEndpointState (by decide),
   (failover_swallows_switch_error.2 (fun _ _ => false) 2 oneEndpointState
      (fun _ _ => rfl)).1,
   (failover_swallows_switch_error.2 (fun _ _ => false) 2 oneEndpointState
      (fun _ _ => rfl)).2⟩

/-- C6 counterexample: starting from a file system whose live record for
wallet `0` is `oldRecord`, `save_wallet` with new contents `blobB` at time 5
produces a backup entry `(0, 5)` holding the NEWLY WRITTEN record — not the
pre-save record `oldRecord` the claim says the backup holds. -/
theorem save_backup_holds_new_record_counterexample :
    fsOne.live 0 = some oldRecord ∧
    (StorageService.save_wallet fsOne 0 blobB 9 none 5).toOption.map
        (fun fs => fs.backups 0 5) =
      some (some (StorageService.mkSavedRecord 0 blobB 9 none 5)) ∧
    StorageService.mkSavedRecord 0 blobB 9 none 5 ≠ oldRecord :=
  ⟨rfl, rfl, by decide⟩

/-- C6 (amended): `delete_wallet` does copy the current on-disk record into
the timestamp-named backup entry before removing the live record (provided
the post-delete backup-path recomputation lands on a different timestamp);
`save_wallet`, however, first overwrites the live record (temp-then-rename)
and only then takes the backup, so the backup made by save holds the newly
written record, not the pre-save one. -/
theorem save_delete_backup_order :
    (∀ (fs : StorageFs) (name : Nat) (data : EncryptedData) (pk : Nat)
        (desc : Option Nat) (now : Int),
      ∃ fsS, StorageService.save_wallet fs name data pk desc now = .ok fsS ∧
        fsS.live name = some (StorageService.mkSavedRecord name data pk desc now) ∧
        fsS.backups name now = some (StorageService.mkSavedRecord name data pk desc now)) ∧
    (∀ (fs : StorageFs) (name : Nat) (r : WalletStorage) (t t2 : Int),
      fs.live name = some r → t ≠ t2 →
      ∃ fsD, StorageService.delete_wallet fs name t t2 = .ok fsD ∧
        fsD.backups name t = some r ∧
        fsD.live name = none) := by
  constructor
  · intro fs name data pk desc now
    have hok : StorageService.save_wallet fs name data pk desc now = .ok
        { live := fun n =>
            if n = name then some (StorageService.mkSavedRecord name data pk desc now)
            else fs.live n
          backups := fun n t2 =>
            if n = name ∧ t2 = now then some (StorageService.mkSavedRecord name data pk desc now)
            else fs.backups n t2 } := by
      unfold StorageService.save_wallet StorageService.backup_wallet
      simp
    exact ⟨_, hok, by simp, by simp⟩
  · intro fs name r t t2 hl hne
    unfold StorageService.delete_wallet StorageService.backup_wallet
    rw [hl]
    refine ⟨_, rfl, ?_, ?_⟩
    · split <;> simp [hne]
    · split <;> simp

theorem save_delete_backup_order_witness :
    (∃ fsS, StorageService.save_wallet fsOne 0 blobB 9 none 5 = .ok fsS ∧
      fsS.live 0 = some (StorageService.mkSavedRecord 0 blobB 9 none 5) ∧
      fsS.backups 0 5 = some (StorageService.mkSavedRecord 0 blobB 9 none 5)) ∧
    (∃ fsD, StorageService.delete_wallet fsOne 0 5 6 = .ok fsD ∧
      fsD.backups 0 5 = some oldRecord ∧
      fsD.live 0 = none) :=
  ⟨save_delete_backup_order.1 fsOne 0 blobB 9 none 5,
   save_delete_backup_order.2 fsOne 0 oldRecord 5 6 rfl (by decide)⟩

theorem is_action_allowed_ok_le (ctx : AgentContext) (a : ℚ) (u : Unit)
    (h : ctx.is_action_allowed a = .ok u) :
    a ≤ ctx.spending_limits.per_transaction_limit_sol ∧
    a ≤ ctx.spending_limits.remaining_daily_budget_sol := by
  unfold AgentContext.is_action_allowed at h
  split_ifs at h with h1 h2
  exact ⟨not_lt.mp h1, not_lt.mp h2⟩

theorem transfer_sol_spec (ctx : AgentContext) (env : Wallet.TransferEnv) :
    ((Wallet.transfer_sol ctx env).1.isOk = false →
      (Wallet.transfer_sol ctx env).2 = ctx) ∧
    ((Wallet.transfer_sol ctx env).1.isOk = true →
      env.amount ≤ ctx.spending_limits.remaining_daily_budget_sol ∧
      (Wallet.transfer_sol ctx env).2.spending_limits.remaining_daily_budget_sol =
        ctx.spending_limits.remaining_daily_budget_sol - env.amount ∧
      (Wallet.transfer_sol ctx env).2.spending_limits.daily_limit_sol =
        ctx.spending_limits.daily_limit_sol) := by
  by_cases c1 : solToLamportsRounded env.amount = 0
  · simp [Wallet.transfer_sol, c1, isOk_error_eq]
  · by_cases c2 : solToLamportsRounded env.balance < solToLamportsRounded env.amount
    · simp [Wallet.transfer_sol, c1, c2, isOk_error_eq]
    · cases m1 : ctx.is_action_allowed env.amount with
      | error e => simp [Wallet.transfer_sol, c1, c2, m1, isOk_error_eq]
      | ok u =>
        cases m2 : TransactionBuilder.build_from_action
            (AgentAction.transferSol env.dest (solToLamportsRounded env.amount) env.memo)
            ctx TransactionOptions.default env.txSizeOf with
        | error e2 => simp [Wallet.transfer_sol, c1, c2, m1, m2, isOk_error_eq]
        | ok tx =>
          by_cases c3 : (TransactionBuilder.validate_transaction (env.txSizeOf tx) 1
              tx.instructions.length tx.fee_payer ctx TransactionOptions.default).is_valid = false
          · simp [Wallet.transfer_sol, c1, c2, m1, m2, c3, isOk_error_eq]
          · by_cases c4 : env.netOk = true
            · simp only [Wallet.transfer_sol, c1, c2, m1, m2, c3, c4]
              have hle := (is_action_allowed_ok_le ctx env.amount u m1).2
              refine ⟨?_, fun _ => ⟨hle, ?_, ?_⟩⟩
              · intro h
                simp [isOk_ok_eq] at h
              · simp [AgentContext.deduct_from_budget, AgentContext.record_success,
                  not_lt.mpr (sub_nonneg.mpr hle)]
              · simp [AgentContext.deduct_from_budget, AgentContext.record_success]
            · simp [Wallet.transfer_sol, c1, c2, m1, m2, c3, c4, isOk_error_eq]

theorem run_transfers_spec :
    ∀ (envs : List Wallet.TransferEnv) (ctx : AgentContext),
      ((Wallet.run_transfers ctx envs).1 = true →
        (Wallet.run_transfers ctx envs).2.spending_limits.remaining_daily_budget_sol =
          ctx.spending_limits.remaining_daily_budget_sol -
            (envs.map Wallet.TransferEnv.amount).sum ∧
        (Wallet.run_transfers ctx envs).2.spending_limits.daily_limit_sol =
          ctx.spending_limits.daily_limit_sol) ∧
      (0 ≤ ctx.spending_limits.remaining_daily_budget_sol →
        0 ≤ (Wallet.run_transfers ctx envs).2.spending_limits.remaining_daily_budget_sol) := by
  intro envs
  induction envs with
  | nil => intro ctx; simp [Wallet.run_transfers]
  | cons env rest ih =>
    intro ctx
    simp only [Wallet.run_transfers, List.map_cons, List.sum_cons]
    constructor
    · intro h
      rw [Bool.and_eq_true] at h
      obtain ⟨hstep, htail⟩ := h
      have hspec := (transfer_sol_spec ctx env).2 hstep
      have hih := (ih (Wallet.transfer_sol ctx env).2).1 htail
      constructor
      · rw [hih.1, hspec.2.1]; ring
      · rw [hih.2, hspec.2.2]
    · intro h0
      have hstep0 :
          0 ≤ (Wallet.transfer_sol ctx env).2.spending_limits.remaining_daily_budget_sol := by
        cases hok : (Wallet.transfer_sol ctx env).1.isOk with
        | false => rw [(transfer_sol_spec ctx env).1 hok]; exact h0
        | true =>
          have hspec := (transfer_sol_spec ctx env).2 hok
          rw [hspec.2.1]
          exact sub_nonneg.mpr hspec.1
      exact (ih _).2 hstep0

/-- C3: starting from a full daily budget, after a sequence of transfers that
ALL succeed, the remaining daily budget equals the daily limit minus the sum
of the transferred amounts; the remaining budget stays non-negative after any
sequence of operations (from a non-negative start); and a `transfer_sol` call
that fails at any stage leaves the agent context — in particular its
remaining budget — unchanged. -/
theorem budget_conservation_and_failure_isolation :
    ∀ (ctx : AgentContext) (envs : List Wallet.TransferEnv),
      (ctx.spending_limits.remaining_daily_budget_sol = ctx.spending_limits.daily_limit_sol →
        (Wallet.run_transfers ctx envs).1 = true →
        (Wallet.run_transfers ctx envs).2.spending_limits.remaining_daily_budget_sol =
          ctx.spending_limits.daily_limit_sol -
            (envs.map Wallet.TransferEnv.amount).sum) ∧
      (0 ≤ ctx.spending_limits.remaining_daily_budget_sol →
        0 ≤ (Wallet.run_transfers ctx envs).2.spending_limits.remaining_daily_budget_sol) ∧
      (∀ env, (Wallet.transfer_sol ctx env).1.isOk = false →
        (Wallet.transfer_sol ctx env).2 = ctx) := by
  intro ctx envs
  refine ⟨?_, (run_transfers_spec envs ctx).2, fun env => (transfer_sol_spec ctx env).1⟩
  intro hfull hok
  rw [((run_transfers_spec envs ctx).1 hok).1, hfull]

theorem budget_conservation_witness :
    (Wallet.run_transfers (AgentContext.new 0)
        [envHalf, envQuarter]).2.spending_limits.remaining_daily_budget_sol =
      (AgentContext.new 0).spending_limits.daily_limit_sol -
        (([envHalf, envQuarter].map Wallet.TransferEnv.amount).sum) ∧
    0 ≤ (Wallet.run_transfers (AgentContext.new 0)
        [envHalf, envQuarter]).2.spending_limits.remaining_daily_budget_sol ∧
    (Wallet.transfer_sol (AgentContext.new 0) envSendFails).2 = AgentContext.new 0 :=
  ⟨(budget_conservation_and_failure_isolation (AgentContext.new 0) [envHalf, envQuarter]).1
      rfl (by with_unfolding_all decide),
   (budget_conservation_and_failure_isolation (AgentContext.new 0) [envHalf, envQuarter]).2.1
      (by with_unfolding_all decide),
   (budget_conservation_and_failure_isolation (AgentContext.new 0) []).2.2 envSendFails
      (by with_unfolding_all decide)⟩
